import Mathlib

/-!
Verification of the shipper deployment gateway core.

The definitions below are a shallow embedding of the Go sources:
the deployments table and its four operations (internal/database/database.go),
the configuration loader (config revision with SKIP_TLS_VERIFY and the
valid-service allowlist), the Nomad client operations TriggerDeployment and
GetJobStatus (nomad client revision with token auth and the three-key
metadata merge), the HTTP handlers Deploy, DeployJob and Status, and a
two-caller interleaving model of the duplicate-tag race.

External I/O (HTTP round trips to Nomad, SQL execution) is represented by
oracle values describing the outcome of each network call; the store is a
list of rows, with the UNIQUE constraint on tag_id modelled by insertion
failing when the tag is already present (the repository's own test
TestDuplicateDeployment checks exactly this behaviour of the real store).
-/

namespace Shipper

/-! ## Record store (internal/database/database.go)

One row of the deployments table.  The id / created_at / updated_at columns
are not read by any handler and are omitted. -/

structure DeploymentRecord where
  tag_id : String
  service_name : String
  job_id : String
  status : String
deriving Repr, DecidableEq

abbrev Store := List DeploymentRecord

/-- SELECT ... WHERE tag_id = ? (GetDeployment). -/
def getDeployment (db : Store) (tagID : String) : Option DeploymentRecord :=
  db.find? (fun r => r.tag_id == tagID)

/-- INSERT INTO deployments (InsertDeployment); the UNIQUE constraint on
tag_id makes the insert fail when the tag is already present. -/
def insertDeployment (db : Store) (tagID serviceName jobID status : String) :
    Option Store :=
  if (getDeployment db tagID).isSome then none
  else some (db ++ [⟨tagID, serviceName, jobID, status⟩])

/-- UPDATE deployments SET status = ? WHERE tag_id = ? (UpdateDeploymentStatus). -/
def updateDeploymentStatus (db : Store) (tagID status : String) : Store :=
  db.map (fun r => if r.tag_id == tagID then { r with status := status } else r)

/-- UPDATE deployments SET job_id = ?, status = ? WHERE tag_id = ?
(UpdateDeploymentJobID). -/
def updateDeploymentJobID (db : Store) (tagID jobID status : String) : Store :=
  db.map (fun r =>
    if r.tag_id == tagID then { r with job_id := jobID, status := status } else r)

/-- The status column of the row for a tag, if any. -/
def statusOf (db : Store) (tagID : String) : Option String :=
  (getDeployment db tagID).map (fun r => r.status)

/-! ## Configuration (config revision with SKIP_TLS_VERIFY) -/

structure Config where
  NomadURL : String
  ValidSecret : String
  Port : String
  ValidServices : List String
  SkipTLSVerify : Bool
deriving Repr, DecidableEq

/-- os.Getenv-backed lookup with a default; the environment is a total map
from variable names to values, with the empty string meaning unset, exactly
as os.Getenv reports it. -/
def getEnv (env : String → String) (key defaultValue : String) : String :=
  if env key != "" then env key else defaultValue

/-- strconv.ParseBool: the exact set of strings Go accepts. -/
def parseBool (s : String) : Option Bool :=
  if s == "1" || s == "t" || s == "T" || s == "TRUE" || s == "true" || s == "True" then
    some true
  else if s == "0" || s == "f" || s == "F" || s == "FALSE" || s == "false" || s == "False" then
    some false
  else none

/-- config.Load: VALID_SERVICES is split on commas and trimmed;
SKIP_TLS_VERIFY defaults to the string "true" and falls back to false when
the value does not parse as a boolean. -/
def Config.Load (env : String → String) : Config :=
  let validServicesStr := getEnv env "VALID_SERVICES" ""
  let validServices :=
    if validServicesStr == "" then []
    else (validServicesStr.splitOn ",").map String.trim
  let skipTLSVerifyStr := getEnv env "SKIP_TLS_VERIFY" "true"
  let skipTLSVerify :=
    match parseBool skipTLSVerifyStr with
    | some b => b
    | none => false
  { NomadURL := getEnv env "NOMAD_URL" "https://10.10.85.1:4646"
    ValidSecret := getEnv env "VALID_SECRET"
      "your-64-character-secret-key-here-please-change-this-in-production"
    Port := getEnv env "PORT" "16166"
    ValidServices := validServices
    SkipTLSVerify := skipTLSVerify }

/-- Config.IsValidService: an empty allowlist admits every service; a
non-empty one admits exactly its members. -/
def IsValidService (c : Config) (serviceName : String) : Bool :=
  if c.ValidServices.isEmpty then true
  else c.ValidServices.any (fun v => v == serviceName)

/-- The TLS client configuration the Nomad client is built with
(nomad.NewClient): InsecureSkipVerify is the flag passed in. -/
structure TLSClientConfig where
  InsecureSkipVerify : Bool
deriving Repr, DecidableEq

structure NomadClientConfig where
  URL : String
  Token : String
  tls : TLSClientConfig
deriving Repr, DecidableEq

/-- nomad.NewClient(url, skipTLSVerify, token). -/
def NewClient (url : String) (skipTLSVerify : Bool) (token : String) :
    NomadClientConfig :=
  { URL := url, Token := token, tls := { InsecureSkipVerify := skipTLSVerify } }

/-! ## Metadata merge (TriggerDeployment, nomad client)

A job document is inspected only through its Meta subtree; Meta is a
string-to-string map (an association list with the lookup discipline of a
Go map), absent when the JSON field is nil or not an object. -/

abbrev Meta := List (String × String)

structure JobDoc where
  Meta : Option Shipper.Meta
deriving Repr, DecidableEq

/-- The fresh metadata map built first: the three reserved keys with their
new values (updated_by is the gateway's fixed identity string). -/
def newMetaBase (tagID timestamp : String) : Meta :=
  [("tag_id", tagID), ("timestamp", timestamp), ("updated_by", "bastion")]

/-- The copy loop: each existing key not already present in the map under
construction is carried over with its original value. -/
def mergeMetaLoop (newMeta : Meta) : Meta → Meta
  | [] => newMeta
  | (k, v) :: rest =>
    if (List.lookup k newMeta).isSome then mergeMetaLoop newMeta rest
    else mergeMetaLoop (newMeta ++ [(k, v)]) rest

/-- The metadata merge of TriggerDeployment: start from the reserved keys,
then preserve every existing non-reserved entry. -/
def mergeDeploymentMetadata (existing : Option Meta) (tagID timestamp : String) :
    Meta :=
  match existing with
  | none => newMetaBase tagID timestamp
  | some m => mergeMetaLoop (newMetaBase tagID timestamp) m

/-! ## Observable events

Every store mutation and every network call a handler makes is recorded in
an event trace; orchestrator events carry the submitted payload so that the
merge result stays observable at the model boundary. -/

inductive Event
  | orchFetch (serviceName : String)
  | orchParse
  | orchSubmit (payload : JobDoc)
  | orchSubmitFile (payload : JobDoc)
  | orchEval (evalID : String)
  | dbInsert (tagID serviceName jobID status : String)
  | dbSetStatus (tagID status : String)
  | dbSetJobID (tagID jobID status : String)
deriving Repr, DecidableEq

def Event.isOrch : Event → Bool
  | .orchFetch _ => true
  | .orchParse => true
  | .orchSubmit _ => true
  | .orchSubmitFile _ => true
  | .orchEval _ => true
  | _ => false

def Event.isDbInsert : Event → Bool
  | .dbInsert _ _ _ _ => true
  | _ => false

def Event.isDbSetJobID : Event → Bool
  | .dbSetJobID _ _ _ => true
  | _ => false

/-- Replay of a trace event against the store; orchestrator events do not
touch the store, and an insert against a present tag is rejected by the
UNIQUE constraint and leaves the store as it was. -/
def applyEvent (db : Store) : Event → Store
  | .dbInsert t s j st => (insertDeployment db t s j st).getD db
  | .dbSetStatus t st => updateDeploymentStatus db t st
  | .dbSetJobID t j st => updateDeploymentJobID db t j st
  | _ => db

/-! ## Nomad client operations (TriggerDeployment / GetJobStatus)

Each network round trip is an oracle value naming which of the code's
outcome branches the response takes. -/

/-- Outcome of GET /v1/job/:name plus the response decoding: transport
error, non-200 status, JSON decode error, Job field missing or of the wrong
type, or a decoded job document. -/
inductive FetchJobOutcome
  | netErr (detail : String)
  | badStatus (code : Nat)
  | decodeErr (detail : String)
  | noJobField
  | ok (job : JobDoc)
deriving Repr, DecidableEq

/-- Outcome of POST /v1/jobs plus decoding of the NomadJobResponse. -/
inductive SubmitOutcome
  | netErr (detail : String)
  | badStatus (code : Nat)
  | decodeErr (detail : String)
  | ok (evalID : String) (jobID : String)
deriving Repr, DecidableEq

/-- TriggerDeployment: fetch the current job definition, merge the
deployment metadata into its Meta map, submit the updated document, and
return the evaluation handle; every failure is surfaced as an error whose
message is built exactly as the code formats it. -/
def triggerDeployment (fetch : FetchJobOutcome) (submit : SubmitOutcome)
    (timestamp serviceName tagID : String) :
    Except String String × List Event :=
  let fev := [Event.orchFetch serviceName]
  match fetch with
  | .netErr d =>
    (.error ("failed to fetch job definition from Nomad: " ++ d), fev)
  | .badStatus c =>
    (.error ("failed to fetch job definition, Nomad returned status: " ++ toString c), fev)
  | .decodeErr d =>
    (.error ("failed to decode job definition response: " ++ d), fev)
  | .noJobField =>
    (.error "invalid job definition format", fev)
  | .ok job =>
    let merged : JobDoc := { Meta := some (mergeDeploymentMetadata job.Meta tagID timestamp) }
    let evs := fev ++ [Event.orchSubmit merged]
    match submit with
    | .netErr d => (.error ("failed to submit job to Nomad: " ++ d), evs)
    | .badStatus c => (.error ("nomad returned status: " ++ toString c), evs)
    | .decodeErr d => (.error ("failed to decode Nomad response: " ++ d), evs)
    | .ok evalID _jobID => (.ok evalID, evs)

/-- Outcome of GET /v1/evaluation/:id plus decoding of NomadEvalResponse;
ok carries the raw Status string of the evaluation. -/
inductive EvalFetchOutcome
  | netErr (detail : String)
  | badStatus (code : Nat)
  | decodeErr (detail : String)
  | ok (rawStatus : String)
deriving Repr, DecidableEq

/-- The pure outcome-to-status mapping at the end of GetJobStatus. -/
def mapOutcomeToStatus (s : String) : String :=
  match s with
  | "complete" => "completed"
  | "failed" => "failed"
  | "pending" => "running"
  | _ => "running"

/-- GetJobStatus: fetch the evaluation and map its raw status. -/
def getJobStatus (o : EvalFetchOutcome) (evalID : String) :
    Except String String × List Event :=
  let evs := [Event.orchEval evalID]
  match o with
  | .netErr d => (.error ("failed to get job status from Nomad: " ++ d), evs)
  | .badStatus c => (.error ("nomad returned status: " ++ toString c), evs)
  | .decodeErr d => (.error ("failed to decode Nomad response: " ++ d), evs)
  | .ok raw => (.ok (mapOutcomeToStatus raw), evs)

/-! ## Handlers (internal/handlers/handlers.go and the DeployJob revision) -/

structure DeploymentRequest where
  service_name : String
  tag_id : String
deriving Repr, DecidableEq

/-- What a handler writes back: an http.Error with its status code, a
DeploymentResponse, or a StatusResponse. -/
inductive HandlerResult
  | httpError (code : Nat) (msg : String)
  | deployResp (status tagID jobID message : String)
  | statusResp (status tagID jobID : String)
deriving Repr, DecidableEq

/-- The network outcomes one Deploy invocation can observe. -/
structure DeployEnv where
  fetch : FetchJobOutcome
  submit : SubmitOutcome
  timestamp : String
deriving Repr, DecidableEq

/-- Handler.Deploy: validate the service name, require a tag, reject an
existing tag with 409, insert the pending row, trigger the deployment, and
record failure or the running handle. -/
def deploy (cfg : Config) (env : DeployEnv) (db : Store) (req : DeploymentRequest) :
    HandlerResult × Store × List Event :=
  if !(IsValidService cfg req.service_name) then
    (.httpError 400 "Invalid service name", db, [])
  else if req.tag_id == "" then
    (.httpError 400 "Tag ID is required", db, [])
  else
    match getDeployment db req.tag_id with
    | some _ =>
      (.httpError 409 ("A deployment with tag_id " ++ req.tag_id ++ " already exists"), db, [])
    | none =>
      match insertDeployment db req.tag_id req.service_name "" "pending" with
      | none => (.httpError 500 "Database error", db, [])
      | some db1 =>
        let evIns := [Event.dbInsert req.tag_id req.service_name "" "pending"]
        match triggerDeployment env.fetch env.submit env.timestamp req.service_name req.tag_id with
        | (.error msg, oevs) =>
          (.deployResp "failed" req.tag_id "" msg,
            updateDeploymentStatus db1 req.tag_id "failed",
            evIns ++ oevs ++ [Event.dbSetStatus req.tag_id "failed"])
        | (.ok evalID, oevs) =>
          (.deployResp "running" req.tag_id evalID "",
            updateDeploymentJobID db1 req.tag_id evalID "running",
            evIns ++ oevs ++ [Event.dbSetJobID req.tag_id evalID "running"])

/-- Outcome of POST /v1/jobs/parse plus decoding. -/
inductive ParseJobOutcome
  | netErr (detail : String)
  | badStatus (code : Nat) (body : String)
  | decodeErr (detail : String)
  | ok (jobSpec : JobDoc)
deriving Repr, DecidableEq

/-- parseJobFileWithNomadAPI: delegate canonicalisation of the uploaded HCL
document to the orchestrator's parse endpoint. -/
def parseJobFileWithNomadAPI (o : ParseJobOutcome) :
    Except String JobDoc × List Event :=
  match o with
  | .netErr d => (.error ("failed to call Nomad parse API: " ++ d), [Event.orchParse])
  | .badStatus c body =>
    (.error ("nomad parse API returned status " ++ toString c ++ ": " ++ body), [Event.orchParse])
  | .decodeErr d => (.error ("failed to decode Nomad parse response: " ++ d), [Event.orchParse])
  | .ok spec => (.ok spec, [Event.orchParse])

inductive SubmitFileOutcome
  | err (msg : String)
  | ok (jobID : String)
deriving Repr, DecidableEq

/-- Modelled from the spec: SubmitJobFile is called by DeployJob but its
definition is not among the source files; per the spec, submitJob submits
the (parsed) document to the orchestrator and returns the orchestrator's
asynchronous handle or an error. -/
def submitJobFile (o : SubmitFileOutcome) (payload : JobDoc) (_tagID : String) :
    Except String String × List Event :=
  match o with
  | .err m => (.error m, [Event.orchSubmitFile payload])
  | .ok h => (.ok h, [Event.orchSubmitFile payload])

structure DeployJobEnv where
  parse : ParseJobOutcome
  submit : SubmitFileOutcome
deriving Repr, DecidableEq

/-- Handler.DeployJob (raw job document upload): require a tag, enforce the
1 MiB bound, reject an existing tag with 409, parse the document through
the orchestrator's parse API, insert the pending row (with an empty service
name), submit, and record failure or the running handle.  The multipart
plumbing before the size check touches neither the store nor the
orchestrator and is omitted. -/
def deployJob (env : DeployJobEnv) (db : Store) (tagID : String) (fileSize : Nat) :
    HandlerResult × Store × List Event :=
  if tagID == "" then (.httpError 400 "Tag ID is required", db, [])
  else if fileSize > 1024 * 1024 then
    (.httpError 400 "Job file exceeds 1MB limit", db, [])
  else
    match getDeployment db tagID with
    | some _ =>
      (.httpError 409 ("A deployment with tag_id " ++ tagID ++ " already exists"), db, [])
    | none =>
      match parseJobFileWithNomadAPI env.parse with
      | (.error msg, pevs) =>
        (.httpError 400 ("Failed to parse job file: " ++ msg), db, pevs)
      | (.ok jobJSON, pevs) =>
        match insertDeployment db tagID "" "" "pending" with
        | none => (.httpError 500 "Database error", db, pevs)
        | some db1 =>
          let evs1 := pevs ++ [Event.dbInsert tagID "" "" "pending"]
          match submitJobFile env.submit jobJSON tagID with
          | (.error msg, sevs) =>
            (.deployResp "failed" tagID "" msg,
              updateDeploymentStatus db1 tagID "failed",
              evs1 ++ sevs ++ [Event.dbSetStatus tagID "failed"])
          | (.ok jobID, sevs) =>
            (.deployResp "running" tagID jobID "",
              updateDeploymentJobID db1 tagID jobID "running",
              evs1 ++ sevs ++ [Event.dbSetJobID tagID jobID "running"])

/-- Handler.Status: resolve the record; when it is running with a handle,
reconcile against the orchestrator's evaluation outcome, persisting a
changed status; an orchestrator failure is only logged and the stored
status is returned. -/
def statusHandler (env : EvalFetchOutcome) (db : Store) (tagID : String) :
    HandlerResult × Store × List Event :=
  match getDeployment db tagID with
  | none => (.httpError 404 "Deployment not found", db, [])
  | some r =>
    if r.status == "running" && r.job_id != "" then
      let res := getJobStatus env r.job_id
      match res.1 with
      | .ok nomadStatus =>
        if nomadStatus != r.status then
          (.statusResp nomadStatus tagID r.job_id,
            updateDeploymentStatus db tagID nomadStatus,
            res.2 ++ [Event.dbSetStatus tagID nomadStatus])
        else (.statusResp r.status tagID r.job_id, db, res.2)
      | .error _ => (.statusResp r.status tagID r.job_id, db, res.2)
    else (.statusResp r.status tagID r.job_id, db, [])

/-! ## Two concurrent Deploy calls on the same tag

The duplicate-tag handling of Deploy consists of two separate store
operations: the existence check (GetDeployment) and the guarded insert
(InsertDeployment under the UNIQUE constraint).  Each is atomic on its own;
the interleaving of two racing calls is a schedule choosing which caller
performs its next atomic operation. -/

inductive RaceOutcome
  | conflict
  | created
  | dbError
deriving Repr, DecidableEq

inductive SubmitPhase
  | start
  | checked (found : Bool)
  | done (o : RaceOutcome)
deriving Repr, DecidableEq

/-- One atomic store operation of a Deploy call on its way through the
duplicate-tag region: check, then conflict-return or insert; a failed
insert is the 500 database-error path of the handler. -/
def submitStep (tagID serviceName : String) : SubmitPhase × Store → SubmitPhase × Store
  | (.start, db) => (.checked (getDeployment db tagID).isSome, db)
  | (.checked true, db) => (.done .conflict, db)
  | (.checked false, db) =>
    match insertDeployment db tagID serviceName "" "pending" with
    | some db2 => (.done .created, db2)
    | none => (.done .dbError, db)
  | (.done o, db) => (.done o, db)

/-- Run a schedule: true steps the first caller, false the second. -/
def runSchedule (tagID s1 s2 : String) :
    List Bool → SubmitPhase × SubmitPhase × Store → SubmitPhase × SubmitPhase × Store
  | [], st => st
  | c :: rest, (p1, p2, db) =>
    if c then
      let x := submitStep tagID s1 (p1, db)
      runSchedule tagID s1 s2 rest (x.1, p2, x.2)
    else
      let x := submitStep tagID s2 (p2, db)
      runSchedule tagID s1 s2 rest (p1, x.1, x.2)

/-! ## Trace machinery: replaying a handler's event trace against the store -/

/-- The admissible single-step evolutions of one record's status column:
unchanged, freshly created as pending, or one of the four forward edges of
the deployment state machine. -/
def statusEdgeOk (a b : Option String) : Prop :=
  a = b
    ∨ (a = none ∧ b = some "pending")
    ∨ (a = some "pending" ∧ b = some "running")
    ∨ (a = some "pending" ∧ b = some "failed")
    ∨ (a = some "running" ∧ b = some "completed")
    ∨ (a = some "running" ∧ b = some "failed")

/-- A single store mutation is admissible when every tag's status moves
along an admissible edge. -/
def storeStepOk (s s2 : Store) : Prop :=
  ∀ tag, statusEdgeOk (statusOf s tag) (statusOf s2 tag)

/-- Every event of the trace, replayed in order, is an admissible step. -/
def TraceOk : Store → List Event → Prop
  | _, [] => True
  | db, e :: rest => storeStepOk db (applyEvent db e) ∧ TraceOk (applyEvent db e) rest

/-- Whether every event satisfying isCall is preceded in the trace by a
record-creation (dbInsert) event; created carries whether an insert has
already been seen. -/
def insertPrecedes (isCall : Event → Bool) : Bool → List Event → Bool
  | _, [] => true
  | created, e :: rest =>
    if isCall e && !created then false
    else insertPrecedes isCall (created || e.isDbInsert) rest

def Event.isOrchSubmitFile : Event → Bool
  | .orchSubmitFile _ => true
  | _ => false

/-- Invariant of the two-caller duplicate-tag race: the tag is present in
the store exactly when one caller has created it, at most one caller
creates it, and a caller that saw the tag present (or failed its insert)
can only have done so because the other caller created the record. -/
def RaceInv (tag : String) (p1 p2 : SubmitPhase) (db : Store) : Prop :=
  ((getDeployment db tag).isSome = true
      ↔ (p1 = .done .created ∨ p2 = .done .created))
  ∧ ¬(p1 = .done .created ∧ p2 = .done .created)
  ∧ ((p1 = .checked true ∨ p1 = .done .conflict ∨ p1 = .done .dbError)
      → p2 = .done .created)
  ∧ ((p2 = .checked true ∨ p2 = .done .conflict ∨ p2 = .done .dbError)
      → p1 = .done .created)

/-! ## Store lemmas -/

theorem getDeployment_append (db l2 : Store) (t : String) :
    getDeployment (db ++ l2) t = (getDeployment db t).or (getDeployment l2 t) := by
  simp [getDeployment]

theorem getDeployment_singleton (r : DeploymentRecord) (t : String) :
    getDeployment [r] t = if r.tag_id = t then some r else none := by
  simp [getDeployment]

theorem getDeployment_tag {db : Store} {t : String} {r : DeploymentRecord}
    (h : getDeployment db t = some r) : r.tag_id = t := by
  have := List.find?_some h
  simpa using this

theorem getDeployment_map (f : DeploymentRecord → DeploymentRecord)
    (hf : ∀ r, (f r).tag_id = r.tag_id) (db : Store) (t : String) :
    getDeployment (db.map f) t = (getDeployment db t).map f := by
  unfold getDeployment
  rw [List.find?_map,
    show ((fun r => r.tag_id == t) ∘ f) = (fun r => r.tag_id == t) from
      funext fun r => by simp [Function.comp, hf]]

theorem statusOf_update (db : Store) (t st tag : String) :
    statusOf (updateDeploymentStatus db t st) tag
      = if tag = t then (statusOf db tag).map (fun _ => st) else statusOf db tag := by
  unfold statusOf updateDeploymentStatus
  rw [getDeployment_map _ (fun r => by cases h : r.tag_id == t <;> simp [h])]
  cases hg : getDeployment db tag with
  | none => simp
  | some r =>
    have hr := getDeployment_tag hg
    by_cases htag : tag = t
    · simp [htag, hr]
    · simp [htag, hr]

theorem statusOf_updateJobID (db : Store) (t j st tag : String) :
    statusOf (updateDeploymentJobID db t j st) tag
      = if tag = t then (statusOf db tag).map (fun _ => st) else statusOf db tag := by
  unfold statusOf updateDeploymentJobID
  rw [getDeployment_map _ (fun r => by cases h : r.tag_id == t <;> simp [h])]
  cases hg : getDeployment db tag with
  | none => simp
  | some r =>
    have hr := getDeployment_tag hg
    by_cases htag : tag = t
    · simp [htag, hr]
    · simp [htag, hr]

theorem getDeployment_insert_fresh {db : Store} {t : String} (s j st : String)
    (h : getDeployment db t = none) :
    getDeployment (db ++ [⟨t, s, j, st⟩]) t = some ⟨t, s, j, st⟩ := by
  rw [getDeployment_append, h, Option.none_or, getDeployment_singleton]
  simp

theorem statusOf_append_fresh {db : Store} {t : String} (s j st : String)
    (h : getDeployment db t = none) (tag : String) :
    statusOf (db ++ [⟨t, s, j, st⟩]) tag
      = if tag = t then some st else statusOf db tag := by
  by_cases htag : tag = t
  · subst htag
    simp [statusOf, getDeployment_insert_fresh s j st h]
  · simp only [htag, if_false]
    unfold statusOf
    rw [getDeployment_append, getDeployment_singleton]
    simp [Ne.symm htag, Option.or_none]

theorem insertDeployment_fresh {db : Store} {t : String} (s j st : String)
    (h : getDeployment db t = none) :
    insertDeployment db t s j st = some (db ++ [⟨t, s, j, st⟩]) := by
  simp [insertDeployment, h]

theorem getDeployment_updateStatus_self {db : Store} {t : String}
    {r : DeploymentRecord} (st : String) (h : getDeployment db t = some r) :
    getDeployment (updateDeploymentStatus db t st) t = some { r with status := st } := by
  unfold updateDeploymentStatus
  rw [getDeployment_map _ (fun r => by cases hb : r.tag_id == t <;> simp [hb]), h]
  simp [getDeployment_tag h]

/-- Every error message triggerDeployment can produce is non-empty. -/
theorem triggerDeployment_error_ne_empty (f : FetchJobOutcome) (s : SubmitOutcome)
    (t sv tg msg : String) (evs : List Event)
    (h : triggerDeployment f s t sv tg = (Except.error msg, evs)) : msg ≠ "" := by
  have key : ∃ p d, msg = p ++ d ∧ p.length ≠ 0 := by
    cases f with
    | netErr d =>
      simp only [triggerDeployment, Prod.mk.injEq, Except.error.injEq] at h
      exact ⟨_, d, h.1.symm, by decide⟩
    | badStatus c =>
      simp only [triggerDeployment, Prod.mk.injEq, Except.error.injEq] at h
      exact ⟨_, toString c, h.1.symm, by decide⟩
    | decodeErr d =>
      simp only [triggerDeployment, Prod.mk.injEq, Except.error.injEq] at h
      exact ⟨_, d, h.1.symm, by decide⟩
    | noJobField =>
      simp only [triggerDeployment, Prod.mk.injEq, Except.error.injEq] at h
      exact ⟨"invalid job definition format", "", by simp [h.1.symm], by decide⟩
    | ok job =>
      cases s with
      | netErr d =>
        simp only [triggerDeployment, Prod.mk.injEq, Except.error.injEq] at h
        exact ⟨_, d, h.1.symm, by decide⟩
      | badStatus c =>
        simp only [triggerDeployment, Prod.mk.injEq, Except.error.injEq] at h
        exact ⟨_, toString c, h.1.symm, by decide⟩
      | decodeErr d =>
        simp only [triggerDeployment, Prod.mk.injEq, Except.error.injEq] at h
        exact ⟨_, d, h.1.symm, by decide⟩
      | ok evalID jobID => simp [triggerDeployment] at h
  obtain ⟨p, d, hm, hp⟩ := key
  intro hc
  rw [hc] at hm
  have hlen : (0 : Nat) = p.length + d.length := by
    simpa [String.length_append] using congrArg String.length hm
  omega

theorem storeStepOk_refl (db : Store) : storeStepOk db db :=
  fun _ => Or.inl rfl

theorem traceOk_append {db : Store} {l1 l2 : List Event}
    (h1 : TraceOk db l1) (h2 : TraceOk (l1.foldl applyEvent db) l2) :
    TraceOk db (l1 ++ l2) := by
  induction l1 generalizing db with
  | nil => simpa using h2
  | cons e rest ih =>
    exact ⟨h1.1, ih h1.2 (by simpa using h2)⟩

theorem applyEvent_orch {e : Event} (h : e.isOrch = true) (db : Store) :
    applyEvent db e = db := by
  cases e <;> simp_all [Event.isOrch, applyEvent]

theorem foldl_applyEvent_orch {l : List Event} (h : ∀ e ∈ l, e.isOrch = true)
    (db : Store) : l.foldl applyEvent db = db := by
  induction l generalizing db with
  | nil => rfl
  | cons e rest ih =>
    rw [List.foldl_cons, applyEvent_orch (h e (by simp)) db]
    exact ih (fun x hx => h x (by simp [hx])) db

theorem traceOk_orch {l : List Event} (h : ∀ e ∈ l, e.isOrch = true)
    (db : Store) : TraceOk db l := by
  induction l generalizing db with
  | nil => trivial
  | cons e rest ih =>
    rw [TraceOk, applyEvent_orch (h e (by simp)) db]
    exact ⟨storeStepOk_refl db, ih (fun x hx => h x (by simp [hx])) db⟩

theorem triggerDeployment_events_orch (f : FetchJobOutcome) (s : SubmitOutcome)
    (t sv tg : String) :
    ∀ e ∈ (triggerDeployment f s t sv tg).2, e.isOrch = true := by
  cases f <;> cases s <;> simp [triggerDeployment, Event.isOrch]

/-! ## Merge lemmas -/

theorem mergeMetaLoop_preserves {newMeta : Meta} {k v : String}
    (h : List.lookup k newMeta = some v) (m : Meta) :
    List.lookup k (mergeMetaLoop newMeta m) = some v := by
  induction m generalizing newMeta with
  | nil => simpa [mergeMetaLoop] using h
  | cons kv rest ih =>
    obtain ⟨k0, v0⟩ := kv
    rw [mergeMetaLoop]
    split
    · exact ih h
    · exact ih (by rw [List.lookup_append, h]; rfl)

theorem mergeMetaLoop_copies {m : Meta} :
    ∀ {newMeta : Meta} {k v : String}, (k, v) ∈ m → (m.map Prod.fst).Nodup →
      List.lookup k newMeta = none →
      List.lookup k (mergeMetaLoop newMeta m) = some v := by
  induction m with
  | nil => intro _ _ _ hmem _ _; cases hmem
  | cons kv rest ih =>
    intro newMeta k v hmem hnodup hnone
    obtain ⟨k0, v0⟩ := kv
    have hnodup2 : k0 ∉ rest.map Prod.fst ∧ (rest.map Prod.fst).Nodup := by
      simpa [List.nodup_cons] using hnodup
    rw [mergeMetaLoop]
    rcases List.mem_cons.mp hmem with heq | hrest
    · obtain ⟨rfl, rfl⟩ := Prod.mk.injEq .. |>.mp heq.symm
      rw [hnone]
      simp only [Option.isSome_none, Bool.false_eq_true, if_false]
      apply mergeMetaLoop_preserves
      rw [List.lookup_append, hnone]
      simp
    · have hk0 : k ≠ k0 := by
        intro hkk
        subst hkk
        exact hnodup2.1 (List.mem_map.mpr ⟨(k, v), hrest, rfl⟩)
      split
      · exact ih hrest hnodup2.2 hnone
      · refine ih hrest hnodup2.2 ?_
        rw [List.lookup_append, hnone]
        have hb : (k == k0) = false := by simp [hk0]
        simp [List.lookup, hb]

/-! ## Claim theorems -/

/-- Claim C1: for every fetched job document and every tag, the metadata
merge performed before submission produces a metadata map that binds the
reserved keys (tag_id, timestamp, updated_by) to the new values, and binds
every non-reserved key of the job's existing metadata to its original
value unchanged. -/
theorem merge_reserved_and_preserves (m : Meta) (tagID timestamp : String)
    (hnodup : (m.map Prod.fst).Nodup) :
    List.lookup "tag_id" (mergeDeploymentMetadata (some m) tagID timestamp) = some tagID
    ∧ List.lookup "timestamp" (mergeDeploymentMetadata (some m) tagID timestamp)
        = some timestamp
    ∧ List.lookup "updated_by" (mergeDeploymentMetadata (some m) tagID timestamp)
        = some "bastion"
    ∧ ∀ k v, (k, v) ∈ m → k ≠ "tag_id" → k ≠ "timestamp" → k ≠ "updated_by" →
        List.lookup k (mergeDeploymentMetadata (some m) tagID timestamp) = some v := by
  have hred : mergeDeploymentMetadata (some m) tagID timestamp
      = mergeMetaLoop (newMetaBase tagID timestamp) m := rfl
  rw [hred]
  refine ⟨@mergeMetaLoop_preserves (newMetaBase tagID timestamp) "tag_id" tagID rfl m,
    @mergeMetaLoop_preserves (newMetaBase tagID timestamp) "timestamp" timestamp rfl m,
    @mergeMetaLoop_preserves (newMetaBase tagID timestamp) "updated_by" "bastion" rfl m, ?_⟩
  intro k v hmem h1 h2 h3
  apply mergeMetaLoop_copies hmem hnodup
  have hb1 : (k == "tag_id") = false := by simp [h1]
  have hb2 : (k == "timestamp") = false := by simp [h2]
  have hb3 : (k == "updated_by") = false := by simp [h3]
  simp [newMetaBase, List.lookup, hb1, hb2, hb3]

/-- Witness for C1: merging existing metadata owner=x, tag_id=old for the
new tag yields tag_id=new (reserved key overwritten) and owner=x (foreign
key preserved). -/
theorem merge_reserved_and_preserves_witness :
    List.lookup "tag_id"
        (mergeDeploymentMetadata (some [("owner", "x"), ("tag_id", "old")]) "new" "1700000000")
      = some "new"
    ∧ List.lookup "owner"
        (mergeDeploymentMetadata (some [("owner", "x"), ("tag_id", "old")]) "new" "1700000000")
      = some "x" := by
  have h := merge_reserved_and_preserves [("owner", "x"), ("tag_id", "old")]
    "new" "1700000000" (by decide)
  exact ⟨h.1, h.2.2.2 "owner" "x" (by decide) (by decide) (by decide) (by decide)⟩

/-- Claim C3: the outcome-to-status mapping is total and never errors:
every raw outcome maps to one of running, completed, failed and never to
pending; complete maps to completed, failed to failed, and pending as well
as every unrecognized value to running. -/
theorem mapOutcomeToStatus_total (s : String) :
    (mapOutcomeToStatus s = "running" ∨ mapOutcomeToStatus s = "completed"
      ∨ mapOutcomeToStatus s = "failed")
    ∧ mapOutcomeToStatus s ≠ "pending"
    ∧ mapOutcomeToStatus "complete" = "completed"
    ∧ mapOutcomeToStatus "failed" = "failed"
    ∧ mapOutcomeToStatus "pending" = "running"
    ∧ (s ≠ "complete" → s ≠ "failed" → mapOutcomeToStatus s = "running") := by
  refine ⟨?_, ?_, rfl, rfl, rfl, ?_⟩
  · unfold mapOutcomeToStatus; split <;> simp
  · unfold mapOutcomeToStatus; split <;> decide
  · intro h1 h2; unfold mapOutcomeToStatus; split <;> simp_all

/-- Witness for C3 at an unrecognized outcome string. -/
theorem mapOutcomeToStatus_total_witness :
    mapOutcomeToStatus "unrecognized-state" = "running" :=
  (mapOutcomeToStatus_total "unrecognized-state").2.2.2.2.2 (by decide) (by decide)

/-- Counterexample to claim C9 as stated: with SKIP_TLS_VERIFY absent from
the environment, configuration loading does NOT yield skip-verify disabled;
the default string is "true", so verification is disabled by default. -/
theorem skip_tls_default_counterexample :
    ¬ ((Config.Load (fun _ => "")).SkipTLSVerify = false) := by
  decide

/-- Claim C9 amended: when SKIP_TLS_VERIFY is absent, loading yields
SkipTLSVerify = true (verification disabled), and the client is then built
with InsecureSkipVerify = true; enabling verification requires the
explicit opt-in SKIP_TLS_VERIFY=false. -/
theorem skip_tls_default_insecure (env : String → String)
    (habsent : env "SKIP_TLS_VERIFY" = "") :
    (Config.Load env).SkipTLSVerify = true
    ∧ (NewClient (Config.Load env).NomadURL (Config.Load env).SkipTLSVerify
        "").tls.InsecureSkipVerify = true
    ∧ ∀ env2 : String → String, env2 "SKIP_TLS_VERIFY" = "false" →
        (Config.Load env2).SkipTLSVerify = false := by
  refine ⟨?_, ?_, ?_⟩
  · simp [Config.Load, getEnv, habsent, parseBool]
  · simp [Config.Load, NewClient, getEnv, habsent, parseBool]
  · intro env2 h2
    simp [Config.Load, getEnv, h2, parseBool]

/-- Witness for C9 amended, at the empty environment. -/
theorem skip_tls_default_insecure_witness :
    (Config.Load (fun _ => "")).SkipTLSVerify = true :=
  (skip_tls_default_insecure (fun _ => "") rfl).1

/-- Claim C10: with a non-empty allowlist, Deploy rejects a service name
outside the list with a 400 before any record is created and before any
orchestrator call (unchanged store, empty trace); with an empty allowlist
every service name is accepted. -/
theorem deploy_service_allowlist (cfg : Config) (env : DeployEnv) (db : Store)
    (req : DeploymentRequest)
    (hne : cfg.ValidServices ≠ [])
    (hnotin : req.service_name ∉ cfg.ValidServices) :
    deploy cfg env db req = (.httpError 400 "Invalid service name", db, [])
    ∧ ∀ c2 : Config, c2.ValidServices = [] → ∀ s, IsValidService c2 s = true := by
  constructor
  · have hvalid : IsValidService cfg req.service_name = false := by
      unfold IsValidService
      rw [if_neg (by simpa [List.isEmpty_iff] using hne), List.any_eq_false]
      intro x hx
      simp only [beq_iff_eq]
      intro hxx
      exact hnotin (hxx ▸ hx)
    simp [deploy, hvalid]
  · intro c2 h2 s
    simp [IsValidService, h2]

/-- Witness for C10 at a one-element allowlist and a foreign service. -/
theorem deploy_service_allowlist_witness :
    deploy ⟨"url", "secret", "16166", ["web"], true⟩
        ⟨FetchJobOutcome.noJobField, SubmitOutcome.netErr "x", "ts"⟩
        [] ⟨"evil", "t1"⟩
      = (.httpError 400 "Invalid service name", [], []) :=
  (deploy_service_allowlist ⟨"url", "secret", "16166", ["web"], true⟩
    ⟨FetchJobOutcome.noJobField, SubmitOutcome.netErr "x", "ts"⟩
    [] ⟨"evil", "t1"⟩ (by decide) (by decide)).1

/-- Claim C5: a Submit for a tag already present in the store returns 409
Conflict with the store unchanged (the original record untouched) and an
empty trace: no record mutation and no orchestrator call. -/
theorem deploy_duplicate_conflict (cfg : Config) (env : DeployEnv) (db : Store)
    (req : DeploymentRequest) (r : DeploymentRecord)
    (hvalid : IsValidService cfg req.service_name = true)
    (htag : req.tag_id ≠ "")
    (hget : getDeployment db req.tag_id = some r) :
    deploy cfg env db req
      = (.httpError 409 ("A deployment with tag_id " ++ req.tag_id ++ " already exists"),
          db, []) := by
  have hbe : (req.tag_id == "") = false := by simp [htag]
  simp [deploy, hvalid, hbe, hget]

/-- Witness for C5: duplicate Submit for tag v1 leaves the running record
for v1 in place. -/
theorem deploy_duplicate_conflict_witness :
    deploy ⟨"url", "secret", "16166", [], true⟩
        ⟨FetchJobOutcome.noJobField, SubmitOutcome.netErr "x", "ts"⟩
        [⟨"v1", "web", "e1", "running"⟩] ⟨"web", "v1"⟩
      = (.httpError 409 "A deployment with tag_id v1 already exists",
          [⟨"v1", "web", "e1", "running"⟩], []) :=
  deploy_duplicate_conflict ⟨"url", "secret", "16166", [], true⟩
    ⟨FetchJobOutcome.noJobField, SubmitOutcome.netErr "x", "ts"⟩
    [⟨"v1", "web", "e1", "running"⟩] ⟨"web", "v1"⟩ ⟨"v1", "web", "e1", "running"⟩
    (by decide) (by decide) (by decide)

theorem getJobStatus_events (o : EvalFetchOutcome) (evalID : String) :
    (getJobStatus o evalID).2 = [Event.orchEval evalID] := by
  cases o <;> rfl

/-- Claim C6: on a running record with a handle, a failing orchestrator
evaluation call leaves the query successful with the stored (stale) status,
the store unchanged, and no status write in the trace. -/
theorem status_reconcile_failure_swallowed (db : Store) (tagID msg : String)
    (r : DeploymentRecord) (env : EvalFetchOutcome)
    (hget : getDeployment db tagID = some r)
    (hrun : r.status = "running") (hjob : r.job_id ≠ "")
    (hfail : (getJobStatus env r.job_id).1 = .error msg) :
    statusHandler env db tagID
      = (.statusResp "running" tagID r.job_id, db, [Event.orchEval r.job_id]) := by
  have h1 : (r.status == "running") = true := by simp [hrun]
  have h2 : (r.job_id != "") = true := by simp [hjob]
  simp [statusHandler, hget, h1, h2, hfail, getJobStatus_events, hrun]

/-- Witness for C6: a network failure during reconciliation of a running
record returns the stale running status and writes nothing. -/
theorem status_reconcile_failure_swallowed_witness :
    statusHandler (.netErr "connection refused") [⟨"t1", "web", "e1", "running"⟩] "t1"
      = (.statusResp "running" "t1" "e1", [⟨"t1", "web", "e1", "running"⟩],
          [Event.orchEval "e1"]) :=
  status_reconcile_failure_swallowed [⟨"t1", "web", "e1", "running"⟩] "t1"
    "failed to get job status from Nomad: connection refused"
    ⟨"t1", "web", "e1", "running"⟩ (.netErr "connection refused")
    (by decide) rfl (by decide) rfl

theorem isOrch_not_setJobID {e : Event} (h : e.isOrch = true) :
    e.isDbSetJobID = false := by
  cases e <;> simp_all [Event.isOrch, Event.isDbSetJobID]

/-- Claim C7: when the orchestrator fetch or submission fails after the
pending record was created, Deploy sets the record failed, answers with
status failed and a non-empty message, never sets a handle (the record's
job_id stays empty and no handle write appears in the trace), and the
record remains queryable. -/
theorem deploy_failure_marks_failed (cfg : Config) (env : DeployEnv) (db : Store)
    (req : DeploymentRequest) (msg : String) (oevs : List Event)
    (hvalid : IsValidService cfg req.service_name = true)
    (htag : req.tag_id ≠ "")
    (hget : getDeployment db req.tag_id = none)
    (htrig : triggerDeployment env.fetch env.submit env.timestamp req.service_name
        req.tag_id = (Except.error msg, oevs)) :
    (deploy cfg env db req).1 = .deployResp "failed" req.tag_id "" msg
    ∧ msg ≠ ""
    ∧ getDeployment (deploy cfg env db req).2.1 req.tag_id
        = some ⟨req.tag_id, req.service_name, "", "failed"⟩
    ∧ ∀ e ∈ (deploy cfg env db req).2.2, e.isDbSetJobID = false := by
  have hbe : (req.tag_id == "") = false := by simp [htag]
  have hred : deploy cfg env db req
      = (.deployResp "failed" req.tag_id "" msg,
          updateDeploymentStatus (db ++ [⟨req.tag_id, req.service_name, "", "pending"⟩])
            req.tag_id "failed",
          Event.dbInsert req.tag_id req.service_name "" "pending"
            :: (oevs ++ [Event.dbSetStatus req.tag_id "failed"])) := by
    simp [deploy, hvalid, hbe, hget, insertDeployment, htrig]
  refine ⟨by rw [hred], triggerDeployment_error_ne_empty _ _ _ _ _ _ _ htrig, ?_, ?_⟩
  · rw [hred]
    exact getDeployment_updateStatus_self "failed"
      (getDeployment_insert_fresh req.service_name "" "pending" hget)
  · rw [hred]
    intro e he
    have hoevs : oevs
        = (triggerDeployment env.fetch env.submit env.timestamp req.service_name
            req.tag_id).2 := by
      rw [htrig]
    rcases List.mem_cons.mp he with rfl | he2
    · rfl
    rcases List.mem_append.mp he2 with he3 | he4
    · exact isOrch_not_setJobID
        (triggerDeployment_events_orch env.fetch env.submit env.timestamp
          req.service_name req.tag_id e (hoevs ▸ he3))
    · rcases List.mem_singleton.mp he4 with rfl
      rfl

/-- Witness for C7: a 404 on the job fetch ends the v2 record in failed
with an empty handle and a non-empty message. -/
theorem deploy_failure_marks_failed_witness :
    (deploy ⟨"url", "secret", "16166", [], true⟩
        ⟨FetchJobOutcome.badStatus 404, SubmitOutcome.netErr "x", "ts"⟩
        [] ⟨"web", "v2"⟩).1
      = .deployResp "failed" "v2" ""
          "failed to fetch job definition, Nomad returned status: 404"
    ∧ getDeployment (deploy ⟨"url", "secret", "16166", [], true⟩
        ⟨FetchJobOutcome.badStatus 404, SubmitOutcome.netErr "x", "ts"⟩
        [] ⟨"web", "v2"⟩).2.1 "v2"
      = some ⟨"v2", "web", "", "failed"⟩ := by
  have h := deploy_failure_marks_failed ⟨"url", "secret", "16166", [], true⟩
    ⟨FetchJobOutcome.badStatus 404, SubmitOutcome.netErr "x", "ts"⟩ [] ⟨"web", "v2"⟩
    "failed to fetch job definition, Nomad returned status: 404" [Event.orchFetch "web"]
    (by decide) (by decide) rfl rfl
  exact ⟨h.1, h.2.2.1⟩

theorem insertPrecedes_true (isCall : Event → Bool) (l : List Event) :
    insertPrecedes isCall true l = true := by
  induction l with
  | nil => rfl
  | cons e rest ih => simpa [insertPrecedes] using ih

theorem parseJobFile_events (o : ParseJobOutcome) :
    (parseJobFileWithNomadAPI o).2 = [Event.orchParse] := by
  cases o <;> rfl

theorem submitJobFile_events (o : SubmitFileOutcome) (p : JobDoc) (t : String) :
    (submitJobFile o p t).2 = [Event.orchSubmitFile p] := by
  cases o <;> rfl

/-- Counterexample to claim C4 as stated: a successful DeployJob run calls
the orchestrator's parse endpoint before the pending record is inserted,
so record creation does not precede every orchestrator call. -/
theorem deployJob_parse_before_create :
    insertPrecedes Event.isOrch false
      (deployJob ⟨ParseJobOutcome.ok ⟨none⟩, SubmitFileOutcome.ok "e1"⟩ [] "t1" 10).2.2
      = false := by
  decide

/-- Claim C4 amended: in Submit-by-name (Deploy) the pending record is
created before every orchestrator call; in Submit-by-document (DeployJob)
the record is created before the submit call, but the parse call precedes
record creation. -/
theorem create_precedes_orchestrator (cfg : Config) (env : DeployEnv) (db : Store)
    (req : DeploymentRequest) (envJ : DeployJobEnv) (dbJ : Store) (tagJ : String)
    (szJ : Nat) :
    insertPrecedes Event.isOrch false (deploy cfg env db req).2.2 = true
    ∧ insertPrecedes Event.isOrchSubmitFile false (deployJob envJ dbJ tagJ szJ).2.2
        = true := by
  constructor
  · rcases htr : triggerDeployment env.fetch env.submit env.timestamp
      req.service_name req.tag_id with ⟨res, oevs⟩
    unfold deploy
    rw [htr]
    split
    · rfl
    split
    · rfl
    split
    · rfl
    split
    · rfl
    cases res <;>
      simp [insertPrecedes, insertPrecedes_true, Event.isOrch, Event.isDbInsert]
  · obtain ⟨pe, se⟩ := envJ
    unfold deployJob
    split
    · rfl
    split
    · rfl
    split
    · rfl
    cases pe with
    | netErr d =>
      simp [parseJobFileWithNomadAPI, insertPrecedes, Event.isOrchSubmitFile,
        Event.isDbInsert]
    | badStatus c body =>
      simp [parseJobFileWithNomadAPI, insertPrecedes, Event.isOrchSubmitFile,
        Event.isDbInsert]
    | decodeErr d =>
      simp [parseJobFileWithNomadAPI, insertPrecedes, Event.isOrchSubmitFile,
        Event.isDbInsert]
    | ok spec =>
      simp only [parseJobFileWithNomadAPI]
      split
      · simp [insertPrecedes, Event.isOrchSubmitFile, Event.isDbInsert]
      · cases se <;>
          simp [submitJobFile, insertPrecedes, insertPrecedes_true,
            Event.isOrchSubmitFile, Event.isDbInsert]

theorem mapOutcomeToStatus_mem (s : String) :
    mapOutcomeToStatus s = "running" ∨ mapOutcomeToStatus s = "completed"
      ∨ mapOutcomeToStatus s = "failed" := by
  unfold mapOutcomeToStatus
  split <;> simp

theorem getJobStatus_ok_values (o : EvalFetchOutcome) (e ns : String)
    (h : (getJobStatus o e).1 = .ok ns) :
    ns = "running" ∨ ns = "completed" ∨ ns = "failed" := by
  cases o <;> simp [getJobStatus] at h
  exact h ▸ mapOutcomeToStatus_mem _

theorem insertDeployment_some {db : Store} {t s j st : String} {db1 : Store}
    (h : insertDeployment db t s j st = some db1) :
    getDeployment db t = none ∧ db1 = db ++ [⟨t, s, j, st⟩] := by
  unfold insertDeployment at h
  split at h
  · cases h
  · next hns =>
    exact ⟨Option.not_isSome_iff_eq_none.mp (by simpa using hns),
      (Option.some.injEq .. |>.mp h).symm⟩

theorem storeStepOk_insert_pending {db : Store} {t : String} (s : String)
    (h : getDeployment db t = none) :
    storeStepOk db (db ++ [⟨t, s, "", "pending"⟩]) := by
  intro tag
  rw [statusOf_append_fresh s "" "pending" h tag]
  by_cases htag : tag = t
  · subst htag
    rw [if_pos rfl]
    exact Or.inr (Or.inl ⟨by simp [statusOf, h], rfl⟩)
  · rw [if_neg htag]
    exact Or.inl rfl

theorem storeStepOk_update (db : Store) (t a b : String)
    (hst : statusOf db t = some a)
    (hedge : statusEdgeOk (some a) (some b)) :
    storeStepOk db (updateDeploymentStatus db t b) := by
  intro tag
  rw [statusOf_update]
  by_cases htag : tag = t
  · subst htag
    rw [if_pos rfl, hst]
    simpa using hedge
  · rw [if_neg htag]
    exact Or.inl rfl

theorem storeStepOk_updateJobID (db : Store) (t j a b : String)
    (hst : statusOf db t = some a)
    (hedge : statusEdgeOk (some a) (some b)) :
    storeStepOk db (updateDeploymentJobID db t j b) := by
  intro tag
  rw [statusOf_updateJobID]
  by_cases htag : tag = t
  · subst htag
    rw [if_pos rfl, hst]
    simpa using hedge
  · rw [if_neg htag]
    exact Or.inl rfl

theorem statusEdgeOk_pending_failed :
    statusEdgeOk (some "pending") (some "failed") :=
  Or.inr (Or.inr (Or.inr (Or.inl ⟨rfl, rfl⟩)))

theorem statusEdgeOk_pending_running :
    statusEdgeOk (some "pending") (some "running") :=
  Or.inr (Or.inr (Or.inl ⟨rfl, rfl⟩))

theorem statusEdgeOk_running_completed :
    statusEdgeOk (some "running") (some "completed") :=
  Or.inr (Or.inr (Or.inr (Or.inr (Or.inl ⟨rfl, rfl⟩))))

theorem statusEdgeOk_running_failed :
    statusEdgeOk (some "running") (some "failed") :=
  Or.inr (Or.inr (Or.inr (Or.inr (Or.inr ⟨rfl, rfl⟩))))

/-- The insert-then-mutate trace pattern shared by Deploy and DeployJob:
an orchestrator-only prefix, the pending insert, an orchestrator-only
middle, and one closing store mutation. -/
theorem traceOk_insert_pattern (db : Store) (t s : String) (pre mid : List Event)
    (hpre : ∀ e ∈ pre, e.isOrch = true) (hmid : ∀ e ∈ mid, e.isOrch = true)
    (hget : getDeployment db t = none) (e2 : Event)
    (hstep : storeStepOk (db ++ [⟨t, s, "", "pending"⟩])
      (applyEvent (db ++ [⟨t, s, "", "pending"⟩]) e2)) :
    TraceOk db (((pre ++ [Event.dbInsert t s "" "pending"]) ++ mid) ++ [e2])
    ∧ (((pre ++ [Event.dbInsert t s "" "pending"]) ++ mid) ++ [e2]).foldl
        applyEvent db
      = applyEvent (db ++ [⟨t, s, "", "pending"⟩]) e2 := by
  have hins : applyEvent db (Event.dbInsert t s "" "pending")
      = db ++ [⟨t, s, "", "pending"⟩] := by
    simp [applyEvent, insertDeployment, hget]
  have hfold1 : (pre ++ [Event.dbInsert t s "" "pending"]).foldl applyEvent db
      = db ++ [⟨t, s, "", "pending"⟩] := by
    rw [List.foldl_append, foldl_applyEvent_orch hpre]
    simpa using hins
  have hfold2 : ((pre ++ [Event.dbInsert t s "" "pending"]) ++ mid).foldl
      applyEvent db = db ++ [⟨t, s, "", "pending"⟩] := by
    rw [List.foldl_append, hfold1, foldl_applyEvent_orch hmid]
  constructor
  · apply traceOk_append
    · apply traceOk_append
      · apply traceOk_append (traceOk_orch hpre db)
        rw [foldl_applyEvent_orch hpre]
        exact ⟨by rw [hins]; exact storeStepOk_insert_pending s hget,
          by rw [hins]; trivial⟩
      · rw [hfold1]
        exact traceOk_orch hmid _
    · rw [hfold2]
      exact ⟨hstep, trivial⟩
  · rw [List.foldl_append, hfold2]
    rfl

/-- Claim C8: the status column only ever moves along the edges
pending to running, running to completed, running to failed, or pending to
failed (besides creation as pending); replaying each handler's trace, every
single store mutation is an admissible edge for every tag, and the trace
replay reproduces the handler's final store, for Deploy, DeployJob and
Status alike. -/
theorem status_transitions_monotone (cfg : Config) (env : DeployEnv) (db : Store)
    (req : DeploymentRequest) (envJ : DeployJobEnv) (dbJ : Store) (tagJ : String)
    (szJ : Nat) (envS : EvalFetchOutcome) (dbS : Store) (tagS : String) :
    (TraceOk db (deploy cfg env db req).2.2
      ∧ (deploy cfg env db req).2.1 = (deploy cfg env db req).2.2.foldl applyEvent db)
    ∧ (TraceOk dbJ (deployJob envJ dbJ tagJ szJ).2.2
      ∧ (deployJob envJ dbJ tagJ szJ).2.1
          = (deployJob envJ dbJ tagJ szJ).2.2.foldl applyEvent dbJ)
    ∧ (TraceOk dbS (statusHandler envS dbS tagS).2.2
      ∧ (statusHandler envS dbS tagS).2.1
          = (statusHandler envS dbS tagS).2.2.foldl applyEvent dbS) := by
  refine ⟨?_, ?_, ?_⟩
  · rcases htr : triggerDeployment env.fetch env.submit env.timestamp
      req.service_name req.tag_id with ⟨res, oevs⟩
    have horch : ∀ e ∈ oevs, e.isOrch = true := by
      have h := triggerDeployment_events_orch env.fetch env.submit env.timestamp
        req.service_name req.tag_id
      rw [htr] at h
      exact h
    unfold deploy
    rw [htr]
    split
    · exact ⟨trivial, rfl⟩
    split
    · exact ⟨trivial, rfl⟩
    split
    · exact ⟨trivial, rfl⟩
    split
    · exact ⟨trivial, rfl⟩
    next db1 heq2 =>
      obtain ⟨hget, rfl⟩ := insertDeployment_some heq2
      have hpend : statusOf (db ++ [⟨req.tag_id, req.service_name, "", "pending"⟩])
          req.tag_id = some "pending" := by
        rw [statusOf_append_fresh req.service_name "" "pending" hget req.tag_id,
          if_pos rfl]
      cases res with
      | error msg =>
        dsimp only
        have h := traceOk_insert_pattern db req.tag_id req.service_name [] oevs
          (by simp) horch hget (Event.dbSetStatus req.tag_id "failed")
          (storeStepOk_update _ _ "pending" "failed" hpend statusEdgeOk_pending_failed)
        exact ⟨h.1, h.2.symm⟩
      | ok evalID =>
        dsimp only
        have h := traceOk_insert_pattern db req.tag_id req.service_name [] oevs
          (by simp) horch hget (Event.dbSetJobID req.tag_id evalID "running")
          (storeStepOk_updateJobID _ _ evalID "pending" "running" hpend
            statusEdgeOk_pending_running)
        exact ⟨h.1, h.2.symm⟩
  · obtain ⟨pe, se⟩ := envJ
    unfold deployJob
    split
    · exact ⟨trivial, rfl⟩
    split
    · exact ⟨trivial, rfl⟩
    split
    · exact ⟨trivial, rfl⟩
    rcases hpr : parseJobFileWithNomadAPI pe with ⟨pres, pevs⟩
    have hporch : ∀ e ∈ pevs, e.isOrch = true := by
      have h := parseJobFile_events pe
      rw [hpr] at h
      subst h
      simp [Event.isOrch]
    cases pres with
    | error msg =>
      dsimp only
      exact ⟨traceOk_orch hporch dbJ, (foldl_applyEvent_orch hporch dbJ).symm⟩
    | ok jobJSON =>
      dsimp only
      split
      · exact ⟨traceOk_orch hporch dbJ, (foldl_applyEvent_orch hporch dbJ).symm⟩
      next db1 heq2 =>
        obtain ⟨hget, rfl⟩ := insertDeployment_some heq2
        have hpend : statusOf (dbJ ++ [⟨tagJ, "", "", "pending"⟩]) tagJ
            = some "pending" := by
          rw [statusOf_append_fresh "" "" "pending" hget tagJ, if_pos rfl]
        rcases hsb : submitJobFile se jobJSON tagJ with ⟨sres, sevs⟩
        have hsorch : ∀ e ∈ sevs, e.isOrch = true := by
          have h := submitJobFile_events se jobJSON tagJ
          rw [hsb] at h
          subst h
          simp [Event.isOrch]
        cases sres with
        | error msg =>
          dsimp only
          have h := traceOk_insert_pattern dbJ tagJ "" pevs sevs hporch hsorch
            hget (Event.dbSetStatus tagJ "failed")
            (storeStepOk_update _ _ "pending" "failed" hpend
              statusEdgeOk_pending_failed)
          exact ⟨h.1, h.2.symm⟩
        | ok jobID =>
          dsimp only
          have h := traceOk_insert_pattern dbJ tagJ "" pevs sevs hporch hsorch
            hget (Event.dbSetJobID tagJ jobID "running")
            (storeStepOk_updateJobID _ _ jobID "pending" "running" hpend
              statusEdgeOk_pending_running)
          exact ⟨h.1, h.2.symm⟩
  · unfold statusHandler
    split
    · exact ⟨trivial, rfl⟩
    next r hget =>
      split
      · next hguard =>
        have hrun : r.status = "running" := by
          have := (Bool.and_eq_true _ _ |>.mp hguard).1
          simpa using this
        have hst : statusOf dbS tagS = some "running" := by
          simp [statusOf, hget, hrun]
        dsimp only
        rcases hjs : (getJobStatus envS r.job_id).1 with msg | ns
        · rw [getJobStatus_events]
          exact ⟨⟨storeStepOk_refl dbS, trivial⟩, rfl⟩
        · dsimp only
          rw [getJobStatus_events]
          split
          · next hne =>
            have hnr : ns ≠ "running" := by
              intro hcon
              rw [hcon, hrun] at hne
              simp at hne
            have hedge : statusEdgeOk (some "running") (some ns) := by
              rcases getJobStatus_ok_values envS r.job_id ns hjs with h | h | h
              · exact absurd h hnr
              · subst h; exact statusEdgeOk_running_completed
              · subst h; exact statusEdgeOk_running_failed
            refine ⟨⟨storeStepOk_refl dbS, ?_, trivial⟩, rfl⟩
            exact storeStepOk_update _ _ "running" ns hst hedge
          · exact ⟨⟨storeStepOk_refl dbS, trivial⟩, rfl⟩
      · exact ⟨trivial, rfl⟩

theorem insertDeployment_none {db : Store} {t s j st : String}
    (h : insertDeployment db t s j st = none) :
    (getDeployment db t).isSome = true := by
  unfold insertDeployment at h
  split at h
  · assumption
  · cases h

theorem raceInv_swap {tag : String} {p1 p2 : SubmitPhase} {db : Store}
    (h : RaceInv tag p1 p2 db) : RaceInv tag p2 p1 db :=
  ⟨h.1.trans (or_comm), fun hc => h.2.1 ⟨hc.2, hc.1⟩, h.2.2.2, h.2.2.1⟩

theorem raceInv_init (tag : String) (db0 : Store)
    (h : getDeployment db0 tag = none) :
    RaceInv tag .start .start db0 := by
  refine ⟨by simp [h], by simp, by simp, by simp⟩

theorem raceInv_step1 (tag s1 : String) (p1 p2 : SubmitPhase) (db : Store)
    (hinv : RaceInv tag p1 p2 db) :
    RaceInv tag (submitStep tag s1 (p1, db)).1 p2 (submitStep tag s1 (p1, db)).2 := by
  obtain ⟨h1, h2, h3, h4⟩ := hinv
  cases p1 with
  | start =>
    have h1a : (getDeployment db tag).isSome = true ↔ p2 = .done .created := by
      simpa using h1
    dsimp [submitStep]
    refine ⟨by simpa using h1a, by simp, ?_, ?_⟩
    · intro hb
      rcases hb with hb | hb | hb
      · exact h1a.mp (by simpa using hb)
      · cases hb
      · cases hb
    · intro hb
      exact absurd (h4 hb) (by simp)
  | checked found =>
    cases found with
    | true =>
      have hp2 : p2 = .done .created := h3 (Or.inl rfl)
      dsimp [submitStep]
      refine ⟨by simpa [hp2] using h1, by simp, fun _ => hp2, ?_⟩
      intro hb
      rw [hp2] at hb
      simp at hb
    | false =>
      dsimp only [submitStep]
      rcases hins : insertDeployment db tag s1 "" "pending" with _ | db2
      · have hpres : (getDeployment db tag).isSome = true := insertDeployment_none hins
        have hp2 : p2 = .done .created := by
          rcases h1.mp hpres with hc | hc
          · cases hc
          · exact hc
        dsimp only
        refine ⟨by simp [hpres, hp2], by simp, fun _ => hp2, ?_⟩
        intro hb
        rw [hp2] at hb
        simp at hb
      · obtain ⟨hnone, rfl⟩ := insertDeployment_some hins
        have hnp2 : p2 ≠ .done .created := by
          intro hc
          have := h1.mpr (Or.inr hc)
          rw [hnone] at this
          simp at this
        dsimp only
        refine ⟨?_, by simp [hnp2], by simp, fun _ => rfl⟩
        have : (getDeployment (db ++ [⟨tag, s1, "", "pending"⟩]) tag).isSome = true := by
          rw [getDeployment_insert_fresh s1 "" "pending" hnone]
          rfl
        simp [this]
  | done o =>
    exact ⟨h1, h2, h3, h4⟩

theorem raceInv_run (tag s1 s2 : String) (sched : List Bool) (p1 p2 : SubmitPhase)
    (db : Store) (hinv : RaceInv tag p1 p2 db) :
    RaceInv tag (runSchedule tag s1 s2 sched (p1, p2, db)).1
      (runSchedule tag s1 s2 sched (p1, p2, db)).2.1
      (runSchedule tag s1 s2 sched (p1, p2, db)).2.2 := by
  induction sched generalizing p1 p2 db with
  | nil => exact hinv
  | cons c rest ih =>
    cases c with
    | false =>
      dsimp only [runSchedule]
      exact ih p1 _ _ (raceInv_swap (raceInv_step1 tag s2 p2 p1 db (raceInv_swap hinv)))
    | true =>
      dsimp only [runSchedule]
      exact ih _ p2 _ (raceInv_step1 tag s1 p1 p2 db hinv)

theorem race_outcomes {tag : String} {db : Store} {o1 o2 : RaceOutcome}
    (h : RaceInv tag (.done o1) (.done o2) db) :
    (o1 = .created ∧ (o2 = .conflict ∨ o2 = .dbError))
    ∨ (o2 = .created ∧ (o1 = .conflict ∨ o1 = .dbError)) := by
  obtain ⟨h1, h2, h3, h4⟩ := h
  cases o1 with
  | created =>
    refine Or.inl ⟨rfl, ?_⟩
    cases o2 with
    | created => exact absurd ⟨rfl, rfl⟩ h2
    | conflict => exact Or.inl rfl
    | dbError => exact Or.inr rfl
  | conflict =>
    have hp2 := h3 (Or.inr (Or.inl rfl))
    have : o2 = .created := by
      injection hp2
    exact Or.inr ⟨this, Or.inl rfl⟩
  | dbError =>
    have hp2 := h3 (Or.inr (Or.inr rfl))
    have : o2 = .created := by
      injection hp2
    exact Or.inr ⟨this, Or.inr rfl⟩

/-- Counterexample to claim C2 as stated: under the interleaving where both
callers pass the existence check before either inserts, neither Deploy call
observes Conflict — the loser fails its insert on the UNIQUE constraint and
takes the database-error (500) path, because the check and the insert are
two separate store operations, not one atomic step. -/
theorem submit_race_no_conflict_interleaving :
    (runSchedule "t1" "web" "web" [true, false, true, false]
        (.start, .start, [])).1 = SubmitPhase.done .created
    ∧ (runSchedule "t1" "web" "web" [true, false, true, false]
        (.start, .start, [])).2.1 = SubmitPhase.done .dbError
    ∧ SubmitPhase.done RaceOutcome.created ≠ SubmitPhase.done .conflict
    ∧ SubmitPhase.done RaceOutcome.dbError ≠ SubmitPhase.done .conflict := by
  decide

/-- Claim C2 amended: for every interleaving of two Deploy calls on the
same (fresh) tag, if both run to completion then exactly one creates the
record and the other observes Conflict or a database error; under
sequential execution the loser observes Conflict.  Record creation itself
is atomic (the UNIQUE constraint admits one row per tag), but it is a
separate step from the existence check. -/
theorem submit_race_exactly_one_creates (tag s1 s2 : String) (db0 : Store)
    (sched : List Bool) (o1 o2 : RaceOutcome)
    (habsent : getDeployment db0 tag = none)
    (h1 : (runSchedule tag s1 s2 sched (.start, .start, db0)).1 = .done o1)
    (h2 : (runSchedule tag s1 s2 sched (.start, .start, db0)).2.1 = .done o2) :
    ((o1 = .created ∧ (o2 = .conflict ∨ o2 = .dbError))
      ∨ (o2 = .created ∧ (o1 = .conflict ∨ o1 = .dbError)))
    ∧ runSchedule tag s1 s2 [true, true, false, false] (.start, .start, db0)
        = (.done .created, .done .conflict, db0 ++ [⟨tag, s1, "", "pending"⟩]) := by
  constructor
  · have hinv := raceInv_run tag s1 s2 sched .start .start db0
      (raceInv_init tag db0 habsent)
    rw [h1, h2] at hinv
    exact race_outcomes hinv
  · simp [runSchedule, submitStep, habsent, insertDeployment,
      getDeployment_insert_fresh s1 "" "pending" habsent]

/-- Witness for C2 amended, at the interleaving that defeats the claim as
stated: the first caller creates, the second ends in the database-error
path. -/
theorem submit_race_exactly_one_creates_witness :
    ((RaceOutcome.created = RaceOutcome.created
        ∧ (RaceOutcome.dbError = RaceOutcome.conflict
            ∨ RaceOutcome.dbError = RaceOutcome.dbError))
      ∨ (RaceOutcome.dbError = RaceOutcome.created
        ∧ (RaceOutcome.created = RaceOutcome.conflict
            ∨ RaceOutcome.created = RaceOutcome.dbError)))
    ∧ runSchedule "t1" "web" "web" [true, true, false, false] (.start, .start, [])
        = (.done .created, .done .conflict, [⟨"t1", "web", "", "pending"⟩]) :=
  submit_race_exactly_one_creates "t1" "web" "web" [] [true, false, true, false]
    .created .dbError rfl rfl rfl

end Shipper
